import Mathlib

/-!
Verification development for the vapor transaction-validation engine
(package `validation` in src/mining/miner/miner.go, plus
RawTxSigWitness in src/claim/bytom/mainchain/rawtxsig_witness.go).

Machine integers are modelled as unbounded Int/Nat with explicit range
checks where the Go code performs checked arithmetic, and explicit
wrapping where Go arithmetic is unchecked.  Go pointers are modelled as
Option; a dereference of a nil pointer that Go performs without a guard
is surfaced as the distinguished abort value `Verr.goPanic` (in Go the
process would panic; no claim exercises such inputs).  External
collaborators (vm interpreter, hashing, serialization, consensus
parameters) are not part of this repository and are modelled as opaque
functions gathered in `Env` and constants gathered in `Consts`.
-/

namespace VaporVal

/-- Bytes of a Go byte slice. -/
abbrev ByteStr := List Nat

/-- Content-derived entry identifier (bc.Hash), modelled opaquely. -/
abbrev Hash := Nat

/-- Asset identifier (bc.AssetID), modelled opaquely. -/
abbrev AssetID := Nat

def int64Min : Int := -(2 ^ 63)

def int64Max : Int := 2 ^ 63 - 1

/-- Largest uint64 amount accepted by the per-amount bound check
(math.MaxInt64 in the Go code). -/
def maxInt64Nat : Nat := 2 ^ 63 - 1

/-- Modelled from the spec: checked addition of the external math/checked
package (not part of this repository); returns none when the int64 range
is left. -/
def addInt64 (a b : Int) : Option Int :=
  if int64Min ≤ a + b ∧ a + b ≤ int64Max then some (a + b) else none

/-- Modelled from the spec: checked subtraction of the external
math/checked package. -/
def subInt64 (a b : Int) : Option Int :=
  if int64Min ≤ a - b ∧ a - b ≤ int64Max then some (a - b) else none

/-- Modelled from the spec: checked multiplication of the external
math/checked package. -/
def mulInt64 (a b : Int) : Option Int :=
  if int64Min ≤ a * b ∧ a * b ≤ int64Max then some (a * b) else none

/-- Modelled from the spec: checked division of the external math/checked
package; Go division truncates toward zero (Int.tdiv), and the only
failing cases for int64 are division by zero and MinInt64 / -1. -/
def divInt64 (a b : Int) : Option Int :=
  if b = 0 ∨ (a = int64Min ∧ b = -1) then none else some (Int.tdiv a b)

/-- Two-complement wrap of an unchecked Go int64 operation result. -/
def wrapInt64 (x : Int) : Int := (x + 2 ^ 63) % 2 ^ 64 - 2 ^ 63

/-- The Go conversion int64(n) applied to a uint64 value. -/
def toInt64 (n : Nat) : Int :=
  if n % 2 ^ 64 < 2 ^ 63 then ((n % 2 ^ 64 : Nat) : Int)
  else ((n % 2 ^ 64 : Nat) : Int) - 2 ^ 64

/-- Validation error kinds (the package-level error values of miner.go
lines 759-779 plus the ad-hoc errors.New values of the pegin paths).
errors.Wrap / errors.WithDetail keep the root error, so wrapping is
modelled as the identity.  `goPanic` marks a nil-pointer dereference or
out-of-range index that Go performs unguarded (a runtime panic, not an
error return); `outOfFuel` is a model artifact of the fuel-bounded
recursion and is never produced on inputs with enough fuel. -/
inductive Verr where
  | txVersion
  | wrongTxSize
  | badTimeRange
  | notStandard
  | wrongCoinbaseTx
  | wrongCoinbaseAsset
  | coinbaseArbitraryOversize
  | emptyResults
  | mismatchedAssetID
  | mismatchedPosition
  | mismatchedReference
  | mismatchedValue
  | missingField
  | noSource
  | overflow
  | position
  | unbalanced
  | overGasCredit
  | gasCalculate
  | missingEntry
  | entryType
  | unexpectedEntryType
  | vmError
  | peginNoWitness
  | peginWitnessLenErr
  | parseErr
  | amountOutOfRange
  | merkleProofErr
  | peginValueMismatch
  | peginContractErr
  | p2wshErr
  | peginProgramMismatch
  | parentGenesisMismatch
  | notConfirmed
  | goPanic
  | outOfFuel
deriving DecidableEq

/-- Modelled from the spec: the read-only consensus parameters
(consensus package, config: gas rate, storage gas rate, gas ceiling,
free gas credit, native asset id, coinbase payload limit, parent chain
parameters) live outside this repository; the spec fixes the gas rate
at 100 for the concrete gas-determinism property. -/
structure Consts where
  btmAssetID : AssetID
  vmGasRate : Int
  maxGasAmount : Int
  storageGasRate : Int
  defaultGasCredit : Int
  coinbaseArbitrarySizeLimit : Nat
  parentGenesisBlockHash : String
  peginMinDepth : Nat

/-- GasState of miner.go lines 782-788. -/
structure GasState where
  btmValue : Nat
  gasLeft : Int
  gasUsed : Int
  gasValid : Bool
  storageGas : Int
deriving DecidableEq

/-- GasState.setGas, miner.go lines 790-810.  The checked helpers of the
external math/checked package store 0 into the target on failure before
the error is returned, which is modelled by the explicit zero writes on
the failure branches. -/
def setGas (C : Consts) (g : GasState) (btmValue txSize : Int) :
    GasState × Option Verr :=
  if btmValue < 0 then (g, some .gasCalculate)
  else
    let g1 := { g with btmValue := btmValue.toNat }
    match divInt64 btmValue C.vmGasRate with
    | none => ({ g1 with gasLeft := 0 }, some .gasCalculate)
    | some q =>
      let g2 :=
        if q > C.maxGasAmount then { g1 with gasLeft := C.maxGasAmount }
        else { g1 with gasLeft := q }
      match mulInt64 txSize C.storageGasRate with
      | none => ({ g2 with storageGas := 0 }, some .gasCalculate)
      | some m => ({ g2 with storageGas := m }, none)

/-- GasState.setGasValid, miner.go lines 812-824. -/
def setGasValid (g : GasState) : GasState × Option Verr :=
  match subInt64 g.gasLeft g.storageGas with
  | none => ({ g with gasLeft := 0 }, some .gasCalculate)
  | some gl =>
    if gl < 0 then ({ g with gasLeft := gl }, some .gasCalculate)
    else
      match addInt64 g.gasUsed g.storageGas with
      | none => ({ g with gasLeft := gl, gasUsed := 0 }, some .gasCalculate)
      | some gu =>
        ({ g with gasLeft := gl, gasUsed := gu, gasValid := true }, none)

/-- GasState.updateUsage, miner.go lines 826-842.  The accumulation
GasUsed += gasUsed is the plain (wrapping) Go addition; only the
difference GasLeft - gasLeft is checked. -/
def updateUsage (C : Consts) (g : GasState) (gasLeft : Int) :
    GasState × Option Verr :=
  if gasLeft < 0 then (g, some .gasCalculate)
  else
    match subInt64 g.gasLeft gasLeft with
    | none => (g, some .gasCalculate)
    | some gasUsed =>
      let g1 := { g with gasUsed := wrapInt64 (g.gasUsed + gasUsed),
                         gasLeft := gasLeft }
      if ¬g1.gasValid ∧
          (g1.gasUsed > C.defaultGasCredit ∨ g1.storageGas > g1.gasLeft) then
        (g1, some .overGasCredit)
      else (g1, none)

/-- bc.Program: a vm version and code bytes. -/
structure Program where
  vmVersion : Nat
  code : ByteStr
deriving DecidableEq

/-- bc.AssetAmount: the AssetId field is a Go pointer. -/
structure AssetAmount where
  assetId : Option AssetID
  amount : Nat
deriving DecidableEq

/-- bc.ValueSource: Ref and Value are Go pointers. -/
structure ValueSource where
  ref : Option Hash
  value : Option AssetAmount
  position : Nat
deriving DecidableEq

/-- bc.ValueDestination: Ref and Value are Go pointers. -/
structure ValueDestination where
  ref : Option Hash
  value : Option AssetAmount
  position : Nat
deriving DecidableEq

/-- bc.AssetDefinition, opaque to the validator except for the issuance
program and the computed asset id (Env.computeAssetID). -/
structure AssetDef where
  data : Option Hash
  issuanceProgram : Option Program
deriving DecidableEq

/-- bc.Output: Source and ControlProgram are Go pointers. -/
structure BcOutput where
  source : Option ValueSource
  controlProgram : Option Program
  ordinal : Nat
deriving DecidableEq

/-- The entry variants dispatched on by checkValid (miner.go lines
867-1101).  Slice elements of pointer type are Options; fields the
validator never reads are omitted. -/
inductive Entry where
  | txHeader (version : Nat) (resultIds : List (Option Hash))
  | mux (sources : List (Option ValueSource))
      (witnessDestinations : List (Option ValueDestination))
  | output (o : BcOutput)
  | retirement (source : Option ValueSource) (ordinal : Nat)
  | issuance (witnessAssetDefinition : AssetDef) (value : Option AssetAmount)
      (witnessDestination : Option ValueDestination)
      (witnessArguments : List ByteStr)
  | spend (spentOutputId : Option Hash)
      (witnessDestination : Option ValueDestination)
      (witnessArguments : List ByteStr)
  | coinbase (witnessDestination : Option ValueDestination)
      (arbitrary : Option ByteStr)
  | claim (spentOutputId : Option Hash)
      (witnessDestination : Option ValueDestination)
      (peginWitness : List (Option ByteStr))
  | dpos (witnessDestination : Option ValueDestination)
deriving DecidableEq

/-- bc.Tx as the validator reads it: the entry map is an association
list keyed by bc.EntryID of the entry (that is how the map is built, so
the key passed alongside an entry in the model coincides with the id
the Go code recomputes by hashing). -/
structure Tx where
  id : Hash
  version : Nat
  serializedSize : Nat
  timeRange : Nat
  gasInputIDs : List Hash
  entries : List (Hash × Entry)
deriving DecidableEq

/-- bc.Block as the validator reads it. -/
structure Block where
  version : Nat
  height : Nat
  transactions : List Tx
deriving DecidableEq

/-- Entry lookup in the transaction (tx.Entries map read). -/
def lookupEntry (tx : Tx) (id : Hash) : Option Entry :=
  (tx.entries.find? (fun q => q.1 = id)).map (fun q => q.2)

/-- tx.Output(id): the entry at id, required to be an Output (the bc
accessor returns an error otherwise; the model returns none). -/
def txOutput (tx : Tx) (id : Hash) : Option BcOutput :=
  match lookupEntry tx id with
  | some (.output o) => some o
  | _ => none

/-- Modelled from the spec: bc.AssetAmount.Equal (the bc package is not
part of this repository) reports whether asset id and amount coincide
exactly, and fails when either side or an asset id is missing. -/
def assetAmountEqual : Option AssetAmount → Option AssetAmount →
    Except Unit Bool
  | some a, some b =>
    match a.assetId, b.assetId with
    | some x, some y => .ok (x = y ∧ a.amount = b.amount : Bool)
    | _, _ => .error ()
  | _, _ => .error ()

/-- The parsed merkle proof bundle (MerkleBlock, miner.go lines
1107-1113). -/
structure MerkleBlock where
  blockHeader : ByteStr
  txHashes : List Hash
  statusHashes : List Hash
  flags : List Nat
  matchedTxIDs : List Hash
deriving DecidableEq

/-- A parent-chain transaction output as checkPeginTx reads it. -/
structure BytomOutput where
  amount : Nat
  controlProgram : ByteStr
deriving DecidableEq

/-- A parent-chain transaction as checkPeginTx reads it. -/
structure BytomTx where
  outputs : List BytomOutput
deriving DecidableEq

/-- A parent-chain block header as IsValidPeginWitness reads it. -/
structure BytomBlockHeader where
  height : Nat
  transactionsMerkleRoot : Hash
deriving DecidableEq

/-- The external collaborators of the validator, modelled as opaque
deterministic functions: the vm interpreter, hashing and serialization,
the parent-chain merkle validator, the pegin contract derivation and
the confirmation oracle.  None of their code is part of this
repository. -/
structure Env where
  computeAssetID : AssetDef → AssetID
  vmVerify : Option Program → List ByteStr → Int → Option Int
  moneyRange : Nat → Bool
  unmarshalBytomTx : ByteStr → Option BytomTx
  unmarshalMerkleBlock : ByteStr → Option MerkleBlock
  unmarshalBlockHeader : ByteStr → Option BytomBlockHeader
  validateTxMerkleTreeProof :
    List Hash → List Nat → List Hash → Hash → Bool
  unmarshalHash : ByteStr → Hash
  hashToString : Hash → String
  getPeginContractPrograms : ByteStr → Option ByteStr
  sha256 : ByteStr → ByteStr
  p2wshProgram : ByteStr → Option ByteStr
  validatePegin : Bool
  isConfirmedBytomBlock : Nat → Nat → Option Verr

/-- The read-only part of the validation context: consensus parameters,
collaborators, the enclosing block (a possibly nil pointer) and the
transaction. -/
structure Ctx where
  C : Consts
  env : Env
  block : Option Block
  tx : Tx

/-- The memoization cache (validationState.cache): entry id to the
recorded outcome, nil error included. -/
abbrev Cache := List (Hash × Option Verr)

def cacheLookup (c : Cache) (id : Hash) : Option (Option Verr) :=
  (c.find? (fun q => q.1 = id)).map (fun q => q.2)

def cacheInsert : Cache → Hash → Option Verr → Cache
  | [], id, r => [(id, r)]
  | q :: rest, id, r =>
    if q.1 = id then (id, r) :: rest else q :: cacheInsert rest id r

/-- The mutable state shared through one validation run: the cache and
the GasState, both referenced (not copied) by every context copy. -/
structure VSt where
  cache : Cache
  gas : GasState
deriving DecidableEq

/-- The Go byte-slice view of a possibly nil element. -/
def bytesOf (o : Option ByteStr) : ByteStr := o.getD []

/-- The per-asset accumulator of the Mux case (parity, a Go map from
asset id to int64), determinized as an association list in first-insert
order; Go map iteration order is unspecified. -/
abbrev PMap := List (AssetID × Int)

/-- Map read with presence information (v, ok := parity[a]). -/
def pLookup (p : PMap) (a : AssetID) : Option Int :=
  (p.find? (fun q => q.1 = a)).map (fun q => q.2)

/-- Map write parity[a] = v, keeping the position of an existing key. -/
def pSet : PMap → AssetID → Int → PMap
  | [], a, v => [(a, v)]
  | q :: rest, a, v =>
    if q.1 = a then (a, v) :: rest else q :: pSet rest a v

/-- The source pass of the Mux case (miner.go lines 884-903): per
source, resolve the referenced entry (missing is ErrMissingEntry), skip
Dpos entries, bound the amount by MaxInt64, and add it to the per-asset
accumulator with checked addition. -/
def muxSumSources (tx : Tx) :
    List (Option ValueSource) → PMap → Except Verr PMap
  | [], p => .ok p
  | none :: _, _ => .error .goPanic
  | some s :: rest, p =>
    match s.ref with
    | none => .error .goPanic
    | some r =>
      match lookupEntry tx r with
      | none => .error .missingEntry
      | some (.dpos _) => muxSumSources tx rest p
      | some _ =>
        match s.value with
        | none => .error .goPanic
        | some v =>
          if v.amount > maxInt64Nat then .error .overflow
          else
            match v.assetId with
            | none => .error .goPanic
            | some a =>
              match addInt64 ((pLookup p a).getD 0) (v.amount : Int) with
              | none => .error .overflow
              | some sum => muxSumSources tx rest (pSet p a sum)

/-- The destination pass of the Mux case (miner.go lines 905-918): per
destination, require its asset to be present in the accumulator
(ErrNoSource), bound the amount by MaxInt64, and subtract it with
checked subtraction. -/
def muxSubDests : List (Option ValueDestination) → PMap → Except Verr PMap
  | [], p => .ok p
  | none :: _, _ => .error .goPanic
  | some d :: rest, p =>
    match d.value with
    | none => .error .goPanic
    | some v =>
      match v.assetId with
      | none => .error .goPanic
      | some a =>
        match pLookup p a with
        | none => .error .noSource
        | some sum =>
          if v.amount > maxInt64Nat then .error .overflow
          else
            match subInt64 sum (v.amount : Int) with
            | none => .error .overflow
            | some diff => muxSubDests rest (pSet p a diff)

/-- The accumulator pass of the Mux case (miner.go lines 920-928): the
net of the native settlement asset is fed into setGas; every other
asset must net to exactly zero (ErrUnbalanced otherwise). -/
def checkParity (C : Consts) (txSize : Int) :
    GasState → PMap → GasState × Option Verr
  | g, [] => (g, none)
  | g, (a, amt) :: rest =>
    if a = C.btmAssetID then
      match setGas C g amt txSize with
      | (g1, some e) => (g1, some e)
      | (g1, none) => checkParity C txSize g1 rest
    else if amt ≠ 0 then (g, some .unbalanced)
    else checkParity C txSize g rest

/-- checkPeginTx, miner.go lines 1193-1216: the claimed output of the
parent transaction must carry the claimed amount, and its control
program must equal the P2WSH program of the hash of the pegin contract
derived from the claim script.  The output index is the source position
of the prior output (an out-of-range index panics in Go). -/
def checkPeginTx (env : Env) (rawTx : BytomTx) (pos : Nat)
    (claimAmount : Nat) (claimScript : ByteStr) : Option Verr :=
  match rawTx.outputs.get? pos with
  | none => some .goPanic
  | some out =>
    if claimAmount ≠ out.amount then some .peginValueMismatch
    else
      match env.getPeginContractPrograms claimScript with
      | none => some .peginContractErr
      | some progs =>
        let scriptHash := env.sha256 progs
        match env.p2wshProgram scriptHash with
        | none => some .p2wshErr
        | some controlProg =>
          if out.controlProgram ≠ controlProg then
            some .peginProgramMismatch
          else none

/-- Modelled from the spec: strconv.ParseUint(string(b), 10, 64) of the
Go standard library parses a nonempty string of decimal digits whose
value fits in a uint64, and fails otherwise. -/
def parseUintDec (b : ByteStr) : Option Nat :=
  if b = [] ∨ ¬b.all (fun c => 48 ≤ c ∧ c ≤ 57) then none
  else
    let v := b.foldl (fun acc c => acc * 10 + (c - 48)) 0
    if v < 2 ^ 64 then some v else none

/-- IsValidPeginWitness, miner.go lines 1115-1191.  Note the flags
passed to the merkle validator: the Go loop `for flag := range
merkleBlock.Flags` ranges over the INDICES of the Flags slice, so the
validator receives uint8(0), uint8(1), ... regardless of the flag
values carried by the proof. -/
def IsValidPeginWitness (C : Consts) (env : Env)
    (peginWitness : List (Option ByteStr)) (prevout : BcOutput) :
    Option Verr :=
  match prevout.source with
  | none => some .goPanic
  | some psrc =>
    match psrc.value with
    | none => some .goPanic
    | some _pval =>
      match prevout.controlProgram with
      | none => some .goPanic
      | some _pprog =>
        if peginWitness.length ≠ 5 then some .peginWitnessLenErr
        else
          match parseUintDec (bytesOf (peginWitness.getD 0 none)) with
          | none => some .parseErr
          | some amount =>
            if ¬env.moneyRange amount then some .amountOutOfRange
            else
              let claimScript := bytesOf (peginWitness.getD 2 none)
              match env.unmarshalBytomTx
                  (bytesOf (peginWitness.getD 3 none)) with
              | none => some .parseErr
              | some rawTx =>
                match env.unmarshalMerkleBlock
                    (bytesOf (peginWitness.getD 4 none)) with
                | none => some .parseErr
                | some mb =>
                  let flags :=
                    (List.range mb.flags.length).map (fun i => i % 256)
                  match env.unmarshalBlockHeader mb.blockHeader with
                  | none => some .parseErr
                  | some bh =>
                    if ¬env.validateTxMerkleTreeProof mb.txHashes flags
                        mb.matchedTxIDs bh.transactionsMerkleRoot then
                      some .merkleProofErr
                    else
                      match checkPeginTx env rawTx psrc.position amount
                          claimScript with
                      | some e => some e
                      | none =>
                        let b := env.unmarshalHash
                          (bytesOf (peginWitness.getD 1 none))
                        if env.hashToString b ≠
                            C.parentGenesisBlockHash then
                          some .parentGenesisMismatch
                        else if env.validatePegin then
                          env.isConfirmedBytomBlock bh.height C.peginMinDepth
                        else none

/-- The type switch of checkValidSrc (miner.go lines 1241-1277): the
one outgoing destination of the referenced entry at the given position,
with the position required to be zero for single-destination entries
and bounds-checked for Mux. -/
def srcRefDest : Entry → Nat → Except Verr (Option ValueDestination)
  | .coinbase wd _, pos => if pos ≠ 0 then .error .position else .ok wd
  | .issuance _ _ wd _, pos => if pos ≠ 0 then .error .position else .ok wd
  | .spend _ wd _, pos => if pos ≠ 0 then .error .position else .ok wd
  | .mux _ dests, pos =>
    if pos ≥ dests.length then .error .position
    else .ok (dests.getD pos none)
  | .claim _ wd _, pos => if pos ≠ 0 then .error .position else .ok wd
  | .dpos wd, pos => if pos ≠ 0 then .error .position else .ok wd
  | _, _ => .error .entryType

/-- The type switch of checkValidDest (miner.go lines 1315-1336): the
declared source of the referenced entry at the given position. -/
def destRefSrc : Entry → Nat → Except Verr (Option ValueSource)
  | .output o, pos => if pos ≠ 0 then .error .position else .ok o.source
  | .retirement src _, pos => if pos ≠ 0 then .error .position else .ok src
  | .mux srcs _, pos =>
    if pos ≥ srcs.length then .error .position
    else .ok (srcs.getD pos none)
  | _, _ => .error .entryType

/-- checkValidDest, miner.go lines 1298-1355: walk from a destination
edge to the referenced entry and require its declared source to point
back at the current entry (ErrMismatchedReference), at the current
destination slot (ErrMismatchedPosition), with an identical value
(ErrMismatchedValue). -/
def checkValidDest (ctx : Ctx) (entryID : Hash) (destPos : Nat)
    (vd : Option ValueDestination) : Option Verr :=
  match vd with
  | none => some .missingField
  | some d =>
    match d.ref with
    | none => some .missingField
    | some r =>
      match d.value with
      | none => some .missingField
      | some v =>
        if v.assetId = none then some .missingField
        else
          match lookupEntry ctx.tx r with
          | none => some .missingEntry
          | some e1 =>
            match destRefSrc e1 d.position with
            | .error err => some err
            | .ok none => some .goPanic
            | .ok (some s) =>
              if s.ref ≠ some entryID then some .mismatchedReference
              else if s.position ≠ destPos then some .mismatchedPosition
              else
                match assetAmountEqual s.value (some v) with
                | .error _ => some .missingField
                | .ok false => some .mismatchedValue
                | .ok true => none

/-- The destination-edge loop of the Mux case (miner.go lines 942-948),
with the destination position scoped per iteration. -/
def checkDestsLoop (ctx : Ctx) (entryID : Hash) :
    Nat → List (Option ValueDestination) → Option Verr
  | _, [] => none
  | i, d :: rest =>
    match checkValidDest ctx entryID i d with
    | some err => some err
    | none => checkDestsLoop ctx entryID (i + 1) rest

mutual

/-- checkValid, miner.go lines 856-1105: the memoizing wrapper.  A
cached entry id returns the recorded outcome with the run state
untouched; otherwise the type switch body runs once and its outcome is
recorded (the Go deferred cache write).  The fuel argument is a model
artifact bounding the recursion that Go bounds by acyclicity of the
entry graph; `outOfFuel` never arises when fuel exceeds the recursion
depth. -/
def checkValid (ctx : Ctx) (fuel : Nat) (st : VSt) (id : Hash)
    (e : Entry) : VSt × Option Verr :=
  match cacheLookup st.cache id with
  | some r => (st, r)
  | none =>
    match fuel with
    | 0 => (st, some .outOfFuel)
    | f + 1 =>
      let p := checkValidBody ctx f st id e
      ({ p.1 with cache := cacheInsert p.1.cache id p.2 }, p.2)
termination_by structural fuel

/-- The type switch of checkValid (miner.go lines 867-1102), one case
per entry variant, in source order of the checks. -/
def checkValidBody (ctx : Ctx) (fuel : Nat) (st : VSt) (id : Hash)
    (e : Entry) : VSt × Option Verr :=
  match fuel with
  | 0 => (st, some .outOfFuel)
  | f + 1 =>
  match e with
  | .txHeader version resultIds =>
    match checkResults ctx f st resultIds with
    | (st1, some err) => (st1, some err)
    | (st1, none) =>
      if version = 1 ∧ resultIds.length = 0 then (st1, some .emptyResults)
      else (st1, none)
  | .mux srcs dests =>
    match muxSumSources ctx.tx srcs [] with
    | .error err => (st, some err)
    | .ok p0 =>
      match muxSubDests dests p0 with
      | .error err => (st, some err)
      | .ok p =>
        match checkParity ctx.C (toInt64 ctx.tx.serializedSize) st.gas p with
        | (g1, some err) => ({ st with gas := g1 }, some err)
        | (g1, none) =>
          match checkGasInputs ctx f { st with gas := g1 }
              ctx.tx.gasInputIDs with
          | (st1, some err) => (st1, some err)
          | (st1, none) =>
            match checkDestsLoop ctx id 0 dests with
            | some err => (st1, some err)
            | none =>
              match
                (if ctx.tx.gasInputIDs.length > 0 then setGasValid st1.gas
                 else (st1.gas, none)) with
              | (g2, some err) => ({ st1 with gas := g2 }, some err)
              | (g2, none) =>
                checkSrcsLoop ctx f { st1 with gas := g2 } id 0 srcs
  | .output o => checkValidSrc ctx f st id 0 o.source
  | .retirement src _ => checkValidSrc ctx f st id 0 src
  | .issuance adef value _wd args =>
    match value with
    | none => (st, some .goPanic)
    | some v =>
      match v.assetId with
      | none => (st, some .goPanic)
      | some a =>
        if ctx.env.computeAssetID adef ≠ a then
          (st, some .mismatchedAssetID)
        else
          match ctx.env.vmVerify adef.issuanceProgram args
              st.gas.gasLeft with
          | none => (st, some .vmError)
          | some gasLeft =>
            match updateUsage ctx.C st.gas gasLeft with
            | (g1, some err) => ({ st with gas := g1 }, some err)
            | (g1, none) =>
              match checkValidDest ctx id 0 _wd with
              | some err => ({ st with gas := g1 }, some err)
              | none => ({ st with gas := g1 }, none)
  | .spend soid wd args =>
    match soid with
    | none => (st, some .missingField)
    | some oid =>
      match txOutput ctx.tx oid with
      | none => (st, some .missingEntry)
      | some out =>
        match ctx.env.vmVerify out.controlProgram args st.gas.gasLeft with
        | none => (st, some .vmError)
        | some gasLeft =>
          match updateUsage ctx.C st.gas gasLeft with
          | (g1, some err) => ({ st with gas := g1 }, some err)
          | (g1, none) =>
            match out.source with
            | none => ({ st with gas := g1 }, some .goPanic)
            | some osrc =>
              match wd with
              | none => ({ st with gas := g1 }, some .goPanic)
              | some wdv =>
                match assetAmountEqual osrc.value wdv.value with
                | .error _ => ({ st with gas := g1 }, some .missingField)
                | .ok false =>
                  ({ st with gas := g1 }, some .mismatchedValue)
                | .ok true =>
                  match checkValidDest ctx id 0 wd with
                  | some err => ({ st with gas := g1 }, some err)
                  | none => ({ st with gas := g1 }, none)
  | .coinbase wd arb =>
    match ctx.block with
    | none => (st, some .wrongCoinbaseTx)
    | some b =>
      if b.transactions.head? ≠ some ctx.tx then
        (st, some .wrongCoinbaseTx)
      else
        match wd with
        | none => (st, some .goPanic)
        | some wdv =>
          match wdv.value with
          | none => (st, some .goPanic)
          | some v =>
            match v.assetId with
            | none => (st, some .goPanic)
            | some a =>
              if a ≠ ctx.C.btmAssetID then (st, some .wrongCoinbaseAsset)
              else
                let oversize : Bool :=
                  match arb with
                  | some bytes =>
                    decide (bytes.length > ctx.C.coinbaseArbitrarySizeLimit)
                  | none => false
                if oversize then (st, some .coinbaseArbitraryOversize)
                else
                  match checkValidDest ctx id 0 wd with
                  | some err => (st, some err)
                  | none =>
                    ({ st with gas := { st.gas with gasValid := true } },
                      none)
  | .claim soid wd stack =>
    match soid with
    | none => (st, some .missingField)
    | some oid =>
      match txOutput ctx.tx oid with
      | none => (st, some .missingEntry)
      | some out =>
        if stack.length < 5 ∨ stack.getD 1 none = none ∨
            out.source = none then
          (st, some .peginNoWitness)
        else
          match IsValidPeginWitness ctx.C ctx.env stack out with
          | some err => (st, some err)
          | none =>
            match out.source with
            | none => (st, some .goPanic)
            | some osrc =>
              match wd with
              | none => (st, some .goPanic)
              | some wdv =>
                match assetAmountEqual osrc.value wdv.value with
                | .error _ => (st, some .missingField)
                | .ok false => (st, some .mismatchedValue)
                | .ok true =>
                  match checkValidDest ctx id 0 wd with
                  | some err => (st, some err)
                  | none =>
                    ({ st with gas := { st.gas with gasValid := true } },
                      none)
  | .dpos _ => (st, none)
termination_by structural fuel

/-- The result loop of the TxHeader case (miner.go lines 869-876): a
missing entry yields a nil interface whose type switch falls to the
default case. -/
def checkResults (ctx : Ctx) (fuel : Nat) (st : VSt)
    (l : List (Option Hash)) : VSt × Option Verr :=
  match l with
  | [] => (st, none)
  | none :: _ => (st, some .goPanic)
  | some rid :: rest =>
    match lookupEntry ctx.tx rid with
    | none => (st, some .unexpectedEntryType)
    | some e1 =>
      match fuel with
      | 0 => (st, some .outOfFuel)
      | f + 1 =>
        match checkValid ctx f st rid e1 with
        | (st1, some err) => (st1, some err)
        | (st1, none) => checkResults ctx f st1 rest
termination_by structural fuel

/-- The gas-input loop of the Mux case (miner.go lines 930-940). -/
def checkGasInputs (ctx : Ctx) (fuel : Nat) (st : VSt)
    (l : List Hash) : VSt × Option Verr :=
  match l with
  | [] => (st, none)
  | gid :: rest =>
    match lookupEntry ctx.tx gid with
    | none => (st, some .missingEntry)
    | some e1 =>
      match fuel with
      | 0 => (st, some .outOfFuel)
      | f + 1 =>
        match checkValid ctx f st gid e1 with
        | (st1, some err) => (st1, some err)
        | (st1, none) => checkGasInputs ctx f st1 rest
termination_by structural fuel

/-- The source-edge loop of the Mux case (miner.go lines 956-962), with
the source position scoped per iteration. -/
def checkSrcsLoop (ctx : Ctx) (fuel : Nat) (st : VSt) (entryID : Hash)
    (i : Nat) (l : List (Option ValueSource)) : VSt × Option Verr :=
  match l with
  | [] => (st, none)
  | s :: rest =>
    match fuel with
    | 0 => (st, some .outOfFuel)
    | f + 1 =>
      match checkValidSrc ctx f st entryID i s with
      | (st1, some err) => (st1, some err)
      | (st1, none) => checkSrcsLoop ctx f st1 entryID (i + 1) rest
termination_by structural fuel

/-- checkValidSrc, miner.go lines 1218-1296: after recursively
validating the referenced entry, its outgoing destination at the source
position must point back at the current entry (ErrMismatchedReference),
at the current source slot (ErrMismatchedPosition), with an identical
value (ErrMismatchedValue). -/
def checkValidSrc (ctx : Ctx) (fuel : Nat) (st : VSt) (entryID : Hash)
    (sourcePos : Nat) (vsrc : Option ValueSource) : VSt × Option Verr :=
  match vsrc with
  | none => (st, some .missingField)
  | some s =>
    match s.ref with
    | none => (st, some .missingField)
    | some r =>
      match s.value with
      | none => (st, some .missingField)
      | some v =>
        if v.assetId = none then (st, some .missingField)
        else
          match lookupEntry ctx.tx r with
          | none => (st, some .missingEntry)
          | some e1 =>
            match fuel with
            | 0 => (st, some .outOfFuel)
            | f + 1 =>
            match checkValid ctx f st r e1 with
            | (st1, some err) => (st1, some err)
            | (st1, none) =>
              match srcRefDest e1 s.position with
              | .error err => (st1, some err)
              | .ok none => (st1, some .goPanic)
              | .ok (some d) =>
                if d.ref ≠ some entryID then
                  (st1, some .mismatchedReference)
                else if d.position ≠ sourcePos then
                  (st1, some .mismatchedPosition)
                else
                  match assetAmountEqual d.value (some v) with
                  | .error _ => (st1, some .missingField)
                  | .ok false => (st1, some .mismatchedValue)
                  | .ok true => (st1, none)
termination_by structural fuel

end

/-- keyID of the signing witness (rawtxsig_witness.go): only the xpub,
compared through its string form, matters to Sign; modelled opaquely as
a number. -/
structure KeyID where
  xpub : Nat
deriving DecidableEq

/-- RawTxSigWitness, rawtxsig_witness.go lines 15-19. -/
structure RawTxSigWitness where
  quorum : Int
  keys : List KeyID
  sigs : List ByteStr
deriving DecidableEq

/-- The external collaborators of Sign: the template hash at an index,
the signing primitive of chainkd.XPrv, and the public key of a private
key; all outside this repository. -/
structure SignEnv where
  tplHash : Nat → Nat → ByteStr
  xprvSign : Nat → ByteStr → ByteStr
  xpubOf : Nat → Nat

/-- The padding step of Sign (rawtxsig_witness.go lines 22-29): when
Sigs is shorter than Keys, extend it with empty slots, preserving the
signatures already present. -/
def padSigs (keys : List KeyID) (sigs : List ByteStr) : List ByteStr :=
  if sigs.length < keys.length then
    sigs ++ List.replicate (keys.length - sigs.length) []
  else sigs

/-- The loop of Sign (rawtxsig_witness.go lines 30-46): skip slots that
already hold a signature or whose key differs from the signing key;
store the signature in the first remaining slot and stop. -/
def signLoop (xpub : Nat) (sigBytes : ByteStr) :
    Nat → List KeyID → List ByteStr → List ByteStr
  | _, [], sigs => sigs
  | i, k :: ks, sigs =>
    if (sigs.getD i []).length > 0 then
      signLoop xpub sigBytes (i + 1) ks sigs
    else if k.xpub ≠ xpub then signLoop xpub sigBytes (i + 1) ks sigs
    else sigs.set i sigBytes

/-- RawTxSigWitness.Sign, rawtxsig_witness.go lines 21-48; tpl and
index select the data to sign, xprv is the signing key.  The Go method
always returns nil. -/
def RawTxSigWitness.sign (env : SignEnv) (sw : RawTxSigWitness)
    (tpl index xprv : Nat) : RawTxSigWitness × Option Verr :=
  let sigs0 := padSigs sw.keys sw.sigs
  let sigBytes := env.xprvSign xprv (env.tplHash tpl index)
  ({ sw with sigs := signLoop (env.xpubOf xprv) sigBytes 0 sw.keys sigs0 },
    none)

/-! Concrete fixtures used by the witness and counterexample theorems. -/

/-- Concrete consensus parameters: gas rate 100 (as the spec states),
the other figures arbitrary but fixed. -/
def C0 : Consts :=
  { btmAssetID := 1, vmGasRate := 100, maxGasAmount := 200000,
    storageGasRate := 1, defaultGasCredit := 30000,
    coinbaseArbitrarySizeLimit := 128, parentGenesisBlockHash := "pg",
    peginMinDepth := 6 }

/-- A parent-chain output fixture: 7 units locked under program [9]. -/
def btomOut0 : BytomOutput := { amount := 7, controlProgram := [9] }

/-- A concrete collaborator environment: parsing reads the bytes
directly, hashing and contract derivation are identities, the merkle
validator accepts, confirmation checking is off. -/
def env0 : Env :=
  { computeAssetID := fun _ => 0,
    vmVerify := fun _ _ gas => some gas,
    moneyRange := fun n => decide (0 < n ∧ n ≤ 2 ^ 62),
    unmarshalBytomTx := fun _ => some { outputs := [btomOut0] },
    unmarshalMerkleBlock := fun bs =>
      some { blockHeader := [], txHashes := [5], statusHashes := [],
             flags := bs, matchedTxIDs := [5] },
    unmarshalBlockHeader := fun _ =>
      some { height := 10, transactionsMerkleRoot := 3 },
    validateTxMerkleTreeProof := fun _ _ _ _ => true,
    unmarshalHash := fun _ => 0,
    hashToString := fun _ => "pg",
    getPeginContractPrograms := fun s => some s,
    sha256 := fun s => s,
    p2wshProgram := fun s => some s,
    validatePegin := false,
    isConfirmedBytomBlock := fun _ _ => none }

/-- The fresh gas state of ValidateTx. -/
def gas0 : GasState :=
  { btmValue := 0, gasLeft := 0, gasUsed := 0, gasValid := false,
    storageGas := 0 }

/-- A fresh validation run state: empty cache, fresh gas state. -/
def st0 : VSt := { cache := [], gas := gas0 }

/-- The prior output consumed by the pegin fixtures: 7 units of asset 1
produced by entry 0 at position 0. -/
def prevout7 : BcOutput :=
  { source := some { ref := some 0,
                     value := some { assetId := some 1, amount := 7 },
                     position := 0 },
    controlProgram := some { vmVersion := 1, code := [] }, ordinal := 0 }

/-- A well-formed 5-element pegin witness stack: amount "7" in decimal
ascii, parent genesis bytes, claim script [9], serialized parent tx,
serialized merkle proof [0]. -/
def stackA : List (Option ByteStr) :=
  [some [55], some [0], some [9], some [0], some [0]]

/-- stackA with a single corrupted byte in the serialized merkle proof
(element 4), which env0 parses to a proof differing in one flag value. -/
def stackB : List (Option ByteStr) :=
  [some [55], some [0], some [9], some [0], some [1]]

/-- 50 units of asset 1 (the fixture settlement asset). -/
def aa50 : AssetAmount := { assetId := some 1, amount := 50 }

/-- The coinbase destination fixture: 50 units of the settlement asset
into entry 200 at slot 0. -/
def wd6 : Option ValueDestination :=
  some { ref := some 200, value := some aa50, position := 0 }

/-- The output entry 200, whose source points back at coinbase 100. -/
def out6 : BcOutput :=
  { source := some { ref := some 100, value := some aa50, position := 0 },
    controlProgram := some { vmVersion := 1, code := [] }, ordinal := 0 }

/-- A transaction holding the coinbase 100 and the output 200. -/
def tx6 : Tx :=
  { id := 1, version := 1, serializedSize := 10, timeRange := 0,
    gasInputIDs := [],
    entries := [(100, .coinbase wd6 none), (200, .output out6)] }

/-- A second, distinct transaction in the same block. -/
def tx6b : Tx := { tx6 with id := 2 }

/-- A block holding TWO transactions with the coinbase transaction
first: the coinbase transaction is first but not sole. -/
def block6 : Block :=
  { version := 1, height := 5, transactions := [tx6, tx6b] }

/-- The validation context for the coinbase placement fixtures. -/
def ctx6 : Ctx := { C := C0, env := env0, block := some block6, tx := tx6 }

/-- The run state after validating the coinbase 100 from st0 in ctx6:
outcome cached, gas validity forced. -/
def st1c : VSt :=
  { cache := [(100, none)],
    gas := { btmValue := 0, gasLeft := 0, gasUsed := 0, gasValid := true,
             storageGas := 0 } }

/-- A block whose first transaction is NOT the coinbase transaction. -/
def block6b : Block :=
  { version := 1, height := 5, transactions := [tx6b, tx6] }

/-- ctx6 with the coinbase transaction displaced from position 0. -/
def ctx6b : Ctx := { ctx6 with block := some block6b }

/-- A mux source of 5 units of the non-settlement asset 2, referencing
entry 20. -/
def srcA : ValueSource :=
  { ref := some 20, value := some { assetId := some 2, amount := 5 },
    position := 0 }

/-- A transaction holding an unbalanced mux (one source of asset 2, no
destination) and the referenced spend entry 20. -/
def txM : Tx :=
  { id := 3, version := 1, serializedSize := 8, timeRange := 0,
    gasInputIDs := [],
    entries := [(10, .mux [some srcA] []), (20, .spend none none [])] }

/-- The validation context for the unbalanced-mux fixture. -/
def ctxM : Ctx := { C := C0, env := env0, block := none, tx := txM }

/-- A mux source whose amount 2^63 is just past the per-amount bound. -/
def srcBig : ValueSource :=
  { ref := some 20, value := some { assetId := some 2, amount := 2 ^ 63 },
    position := 0 }

/-- A mux source whose amount 2^63 - 1 sits exactly on the bound. -/
def srcMax : ValueSource :=
  { ref := some 20,
    value := some { assetId := some 2, amount := 2 ^ 63 - 1 },
    position := 0 }

/-- A transaction holding the oversized-amount mux. -/
def txB : Tx :=
  { id := 4, version := 1, serializedSize := 8, timeRange := 0,
    gasInputIDs := [],
    entries := [(12, .mux [some srcBig] []), (20, .spend none none [])] }

/-- The validation context for the oversized-amount fixture. -/
def ctxB : Ctx := { C := C0, env := env0, block := none, tx := txB }

/-- A two-key signing witness whose first slot already carries a
signature. -/
def swW : RawTxSigWitness :=
  { quorum := 1, keys := [{ xpub := 7 }, { xpub := 9 }], sigs := [[1]] }

/-- Concrete signing collaborators: hashing and signing are simple byte
functions, the public key of x is x + 2. -/
def senv : SignEnv :=
  { tplHash := fun _ _ => [2],
    xprvSign := fun _ d => d ++ [3],
    xpubOf := fun x => x + 2 }

/-! Helper lemmas shared by the claim theorems. -/

/-- A mux source whose referenced non-Dpos entry exists and whose amount
reaches 2^63 makes the source pass fail with Overflow. -/
lemma muxSumSources_head_overflow (tx : Tx) (s : ValueSource)
    (rest : List (Option ValueSource)) (p : PMap) (r : Hash) (e1 : Entry)
    (v : AssetAmount) (href : s.ref = some r)
    (hlook : lookupEntry tx r = some e1) (hnd : ∀ wd, e1 ≠ .dpos wd)
    (hval : s.value = some v) (hamt : v.amount ≥ 2 ^ 63) :
    muxSumSources tx (some s :: rest) p = .error .overflow := by
  have hgt : v.amount > maxInt64Nat := by
    simp only [maxInt64Nat]; omega
  cases e1 <;> simp_all [muxSumSources]

/-- A mux source whose amount is at most 2^63 - 1 passes the per-amount
bound check and proceeds to the checked addition. -/
lemma muxSumSources_head_inrange (tx : Tx) (s : ValueSource)
    (rest : List (Option ValueSource)) (p : PMap) (r : Hash) (e1 : Entry)
    (v : AssetAmount) (a : AssetID) (href : s.ref = some r)
    (hlook : lookupEntry tx r = some e1) (hnd : ∀ wd, e1 ≠ .dpos wd)
    (hval : s.value = some v) (ha : v.assetId = some a)
    (hamt : v.amount ≤ 2 ^ 63 - 1) :
    muxSumSources tx (some s :: rest) p =
      (match addInt64 ((pLookup p a).getD 0) (v.amount : Int) with
       | none => .error .overflow
       | some sum => muxSumSources tx rest (pSet p a sum)) := by
  have hle : ¬(v.amount > maxInt64Nat) := by
    simp only [maxInt64Nat]; omega
  cases e1 <;> simp_all [muxSumSources]

/-- A mux destination whose asset is present and whose amount reaches
2^63 makes the destination pass fail with Overflow. -/
lemma muxSubDests_head_overflow (d : ValueDestination)
    (rest : List (Option ValueDestination)) (p : PMap) (v : AssetAmount)
    (a : AssetID) (sum : Int) (hval : d.value = some v)
    (ha : v.assetId = some a) (hp : pLookup p a = some sum)
    (hamt : v.amount ≥ 2 ^ 63) :
    muxSubDests (some d :: rest) p = .error .overflow := by
  have hgt : v.amount > maxInt64Nat := by
    simp only [maxInt64Nat]; omega
  simp_all [muxSubDests]

/-- A mux destination whose amount is at most 2^63 - 1 passes the
per-amount bound check and proceeds to the checked subtraction. -/
lemma muxSubDests_head_inrange (d : ValueDestination)
    (rest : List (Option ValueDestination)) (p : PMap) (v : AssetAmount)
    (a : AssetID) (sum : Int) (hval : d.value = some v)
    (ha : v.assetId = some a) (hp : pLookup p a = some sum)
    (hamt : v.amount ≤ 2 ^ 63 - 1) :
    muxSubDests (some d :: rest) p =
      (match subInt64 sum (v.amount : Int) with
       | none => .error .overflow
       | some diff => muxSubDests rest (pSet p a diff)) := by
  have hle : ¬(v.amount > maxInt64Nat) := by
    simp only [maxInt64Nat]; omega
  simp_all [muxSubDests]

/-- A successful accumulator pass leaves every non-settlement asset with
net zero. -/
lemma checkParity_ok_balanced (C : Consts) (sz : Int) :
    ∀ (p : PMap) (g : GasState), (checkParity C sz g p).2 = none →
      ∀ a amt, (a, amt) ∈ p → a ≠ C.btmAssetID → amt = 0 := by
  intro p
  induction p with
  | nil =>
    intro g _ a amt hm
    simp at hm
  | cons q rest ih =>
    intro g hok a amt hm hne
    obtain ⟨qa, qamt⟩ := q
    by_cases hqa : qa = C.btmAssetID
    · rcases hsg : setGas C g qamt sz with ⟨g1, r1⟩
      cases r1 with
      | some err =>
        rw [checkParity, if_pos hqa, hsg] at hok
        simp at hok
      | none =>
        rw [checkParity, if_pos hqa, hsg] at hok
        rcases List.mem_cons.mp hm with heq | hmem
        · obtain ⟨h1, h2⟩ := Prod.mk.injEq .. ▸ heq
          exact absurd (h1 ▸ hqa) hne
        · exact ih g1 hok a amt hmem hne
    · by_cases hz : qamt ≠ 0
      · rw [checkParity, if_neg hqa, if_pos hz] at hok
        simp at hok
      · rw [checkParity, if_neg hqa, if_neg hz] at hok
        rcases List.mem_cons.mp hm with heq | hmem
        · obtain ⟨h1, h2⟩ := Prod.mk.injEq .. ▸ heq
          push_neg at hz
          omega
        · exact ih g hok a amt hmem hne

/-- When the settlement-asset setGas succeeds and some non-settlement
asset nets nonzero, the accumulator pass fails with Unbalanced. -/
lemma checkParity_unbalanced (C : Consts) (sz : Int) :
    ∀ (p : PMap) (g : GasState),
      (∀ g2 v, (C.btmAssetID, v) ∈ p → (setGas C g2 v sz).2 = none) →
      (∃ a amt, (a, amt) ∈ p ∧ a ≠ C.btmAssetID ∧ amt ≠ 0) →
      (checkParity C sz g p).2 = some .unbalanced := by
  intro p
  induction p with
  | nil =>
    intro g _ hex
    obtain ⟨a, amt, hm, _, _⟩ := hex
    simp at hm
  | cons q rest ih =>
    intro g hsg hex
    obtain ⟨qa, qamt⟩ := q
    by_cases hqa : qa = C.btmAssetID
    · rcases hsgq : setGas C g qamt sz with ⟨g1, r1⟩
      have hok : (setGas C g qamt sz).2 = none :=
        hsg g qamt (by rw [hqa] at *; exact List.mem_cons_self _ _)
      rw [hsgq] at hok
      simp at hok
      subst hok
      rw [checkParity, if_pos hqa, hsgq]
      apply ih g1
      · intro g2 v hv
        exact hsg g2 v (List.mem_cons_of_mem _ hv)
      · obtain ⟨a, amt, hm, hne, hnz⟩ := hex
        rcases List.mem_cons.mp hm with heq | hmem
        · obtain ⟨h1, _⟩ := Prod.mk.injEq .. ▸ heq
          exact absurd (h1 ▸ hqa) hne
        · exact ⟨a, amt, hmem, hne, hnz⟩
    · by_cases hz : qamt ≠ 0
      · rw [checkParity, if_neg hqa, if_pos hz]
      · rw [checkParity, if_neg hqa, if_neg hz]
        apply ih g
        · intro g2 v hv
          exact hsg g2 v (List.mem_cons_of_mem _ hv)
        · obtain ⟨a, amt, hm, hne, hnz⟩ := hex
          rcases List.mem_cons.mp hm with heq | hmem
          · obtain ⟨h1, h2⟩ := Prod.mk.injEq .. ▸ heq
            push_neg at hz
            exact absurd (h2 ▸ hz) hnz
          · exact ⟨a, amt, hmem, hne, hnz⟩

/-- On a cache miss with fuel left, checkValid runs the type switch body
and records its outcome. -/
lemma checkValid_miss_unfold (ctx : Ctx) (f : Nat) (st : VSt) (id : Hash)
    (e : Entry) (hc : cacheLookup st.cache id = none) :
    checkValid ctx (f + 1) st id e =
      (let p := checkValidBody ctx f st id e
       ({ p.1 with cache := cacheInsert p.1.cache id p.2 }, p.2)) := by
  simp only [checkValid, hc]

/-- On a cache hit, checkValid returns the recorded outcome with the run
state untouched, whatever the fuel. -/
lemma checkValid_hit (ctx : Ctx) (fuel : Nat) (st : VSt) (id : Hash)
    (e : Entry) (r : Option Verr) (hc : cacheLookup st.cache id = some r) :
    checkValid ctx fuel st id e = (st, r) := by
  cases fuel <;> simp only [checkValid, hc]

/-- A failing source pass makes the Mux body fail with that error. -/
lemma checkValidBody_mux_sum_error (ctx : Ctx) (f : Nat) (st : VSt)
    (id : Hash) (srcs : List (Option ValueSource))
    (dests : List (Option ValueDestination)) (err : Verr)
    (hsum : muxSumSources ctx.tx srcs [] = .error err) :
    checkValidBody ctx (f + 1) st id (.mux srcs dests) = (st, some err) := by
  simp only [checkValidBody, hsum]

/-- A failing accumulator pass makes the Mux body fail with that error,
keeping the gas mutations made so far. -/
lemma checkValidBody_mux_parity (ctx : Ctx) (f : Nat) (st : VSt)
    (id : Hash) (srcs : List (Option ValueSource))
    (dests : List (Option ValueDestination)) (p0 p : PMap) (g1 : GasState)
    (err : Verr)
    (hsum : muxSumSources ctx.tx srcs [] = .ok p0)
    (hsub : muxSubDests dests p0 = .ok p)
    (hpar : checkParity ctx.C (toInt64 ctx.tx.serializedSize) st.gas p =
      (g1, some err)) :
    checkValidBody ctx (f + 1) st id (.mux srcs dests) =
      ({ st with gas := g1 }, some err) := by
  simp only [checkValidBody, hsum, hsub, hpar]

/-- A successful Mux body implies a successful accumulator pass. -/
lemma checkValidBody_mux_ok_parity (ctx : Ctx) (f : Nat) (st : VSt)
    (id : Hash) (srcs : List (Option ValueSource))
    (dests : List (Option ValueDestination)) (p0 p : PMap)
    (hsum : muxSumSources ctx.tx srcs [] = .ok p0)
    (hsub : muxSubDests dests p0 = .ok p)
    (hok : (checkValidBody ctx (f + 1) st id (.mux srcs dests)).2 = none) :
    (checkParity ctx.C (toInt64 ctx.tx.serializedSize) st.gas p).2 =
      none := by
  rcases hpar : checkParity ctx.C (toInt64 ctx.tx.serializedSize) st.gas p
    with ⟨g1, r1⟩
  cases r1 with
  | none => rfl
  | some err =>
    rw [checkValidBody_mux_parity ctx f st id srcs dests p0 p g1 err hsum
      hsub hpar] at hok
    simp at hok

/-- The cache write of checkValid is read back by the next lookup. -/
lemma cacheLookup_cacheInsert (c : Cache) (id : Hash) (r : Option Verr) :
    cacheLookup (cacheInsert c id r) id = some r := by
  induction c with
  | nil => simp [cacheInsert, cacheLookup, List.find?]
  | cons q rest ih =>
    by_cases h : q.1 = id
    · simp [cacheInsert, h, cacheLookup, List.find?]
    · simpa [cacheInsert, h, cacheLookup, List.find?] using ih

/-- The Sign loop either stores the signature at the first slot that is
empty and key-matching, or, when no slot qualifies, leaves the
signature list unchanged. -/
lemma signLoop_spec (xpub : Nat) (sig : ByteStr) :
    ∀ (keys : List KeyID) (i : Nat) (sigs : List ByteStr),
      (∃ jr, jr < keys.length ∧
          (sigs.getD (i + jr) []).length = 0 ∧
          (∃ k, keys.get? jr = some k ∧ k.xpub = xpub) ∧
          (∀ mr, mr < jr →
            ¬((sigs.getD (i + mr) []).length = 0 ∧
              ∃ k, keys.get? mr = some k ∧ k.xpub = xpub)) ∧
          signLoop xpub sig i keys sigs = sigs.set (i + jr) sig) ∨
      ((∀ mr, mr < keys.length →
          ¬((sigs.getD (i + mr) []).length = 0 ∧
            ∃ k, keys.get? mr = some k ∧ k.xpub = xpub)) ∧
        signLoop xpub sig i keys sigs = sigs) := by
  intro keys
  induction keys with
  | nil =>
    intro i sigs
    right
    refine ⟨fun mr h => absurd h (by simp), rfl⟩
  | cons k ks ih =>
    intro i sigs
    by_cases h1 : (sigs.getD i []).length > 0
    · have hq0 : ¬((sigs.getD (i + 0) []).length = 0 ∧
          ∃ k0, (k :: ks).get? 0 = some k0 ∧ k0.xpub = xpub) := by
        rintro ⟨hz, _⟩
        rw [Nat.add_zero] at hz
        omega
      have hstep : signLoop xpub sig i (k :: ks) sigs =
          signLoop xpub sig (i + 1) ks sigs := by
        simp only [signLoop]
        rw [if_pos h1]
      rcases ih (i + 1) sigs with
        ⟨jr, hjr, hlen, hk, hmin, hres⟩ | ⟨hall, hres⟩
      · left
        refine ⟨jr + 1, by simpa using Nat.succ_lt_succ hjr, ?_, ?_, ?_, ?_⟩
        · have he : i + (jr + 1) = i + 1 + jr := by omega
          rw [he]
          exact hlen
        · simpa using hk
        · intro mr hmr
          cases mr with
          | zero => exact hq0
          | succ m =>
            have he : i + (m + 1) = i + 1 + m := by omega
            rw [he]
            simpa using hmin m (by omega)
        · have he : i + (jr + 1) = i + 1 + jr := by omega
          rw [he, hstep]
          exact hres
      · right
        refine ⟨?_, by rw [hstep]; exact hres⟩
        intro mr hmr
        cases mr with
        | zero => exact hq0
        | succ m =>
          have he : i + (m + 1) = i + 1 + m := by omega
          rw [he]
          simpa using hall m (by simpa using hmr)
    · by_cases h2 : k.xpub = xpub
      · left
        have hz : (sigs.getD (i + 0) []).length = 0 := by
          rw [Nat.add_zero]
          omega
        refine ⟨0, by simp, hz, ⟨k, by simp, h2⟩, fun mr hmr => by omega,
          ?_⟩
        simp only [signLoop]
        rw [if_neg h1, if_neg (by simp [h2]), Nat.add_zero]
      · have hq0 : ¬((sigs.getD (i + 0) []).length = 0 ∧
            ∃ k0, (k :: ks).get? 0 = some k0 ∧ k0.xpub = xpub) := by
          rintro ⟨_, k0, hk0, hx⟩
          simp at hk0
          exact h2 (hk0 ▸ hx)
        have hstep : signLoop xpub sig i (k :: ks) sigs =
            signLoop xpub sig (i + 1) ks sigs := by
          simp only [signLoop]
          rw [if_neg h1, if_pos h2]
        rcases ih (i + 1) sigs with
          ⟨jr, hjr, hlen, hk, hmin, hres⟩ | ⟨hall, hres⟩
        · left
          refine ⟨jr + 1, by simpa using Nat.succ_lt_succ hjr, ?_, ?_,
            ?_, ?_⟩
          · have he : i + (jr + 1) = i + 1 + jr := by omega
            rw [he]
            exact hlen
          · simpa using hk
          · intro mr hmr
            cases mr with
            | zero => exact hq0
            | succ m =>
              have he : i + (m + 1) = i + 1 + m := by omega
              rw [he]
              simpa using hmin m (by omega)
          · have he : i + (jr + 1) = i + 1 + jr := by omega
            rw [he, hstep]
            exact hres
        · right
          refine ⟨?_, by rw [hstep]; exact hres⟩
          intro mr hmr
          cases mr with
          | zero => exact hq0
          | succ m =>
            have he : i + (m + 1) = i + 1 + m := by omega
            rw [he]
            simpa using hall m (by simpa using hmr)

/-! The claim theorems. -/

/-- C1: for a Mux entry validated by checkValid from a fresh cache
slot, every asset other than the settlement asset must net to exactly
zero across the accumulated sources minus destinations (success implies
balance), a nonzero non-settlement net yields the Unbalanced error
whenever the settlement-asset setGas itself succeeds, and sources whose
referenced entry is a Dpos entry are skipped by the asset-sum pass. -/
theorem c1_mux_value_conservation :
    (∀ (ctx : Ctx) (f : Nat) (st : VSt) (id : Hash) srcs dests
        (p0 p : PMap),
      cacheLookup st.cache id = none →
      muxSumSources ctx.tx srcs [] = .ok p0 →
      muxSubDests dests p0 = .ok p →
      (checkValid ctx (f + 2) st id (.mux srcs dests)).2 = none →
      ∀ a amt, (a, amt) ∈ p → a ≠ ctx.C.btmAssetID → amt = 0) ∧
    (∀ (ctx : Ctx) (f : Nat) (st : VSt) (id : Hash) srcs dests
        (p0 p : PMap),
      cacheLookup st.cache id = none →
      muxSumSources ctx.tx srcs [] = .ok p0 →
      muxSubDests dests p0 = .ok p →
      (∀ g2 v, (ctx.C.btmAssetID, v) ∈ p →
        (setGas ctx.C g2 v (toInt64 ctx.tx.serializedSize)).2 = none) →
      (∃ a amt, (a, amt) ∈ p ∧ a ≠ ctx.C.btmAssetID ∧ amt ≠ 0) →
      (checkValid ctx (f + 2) st id (.mux srcs dests)).2 =
        some .unbalanced) ∧
    (∀ (tx : Tx) (s : ValueSource) (r : Hash)
        (wd : Option ValueDestination) rest (p : PMap),
      s.ref = some r → lookupEntry tx r = some (.dpos wd) →
      muxSumSources tx (some s :: rest) p = muxSumSources tx rest p) := by
  refine ⟨?_, ?_, ?_⟩
  · intro ctx f st id srcs dests p0 p hc hsum hsub hsucc a amt hm hne
    rw [checkValid_miss_unfold ctx (f + 1) st id _ hc] at hsucc
    simp only at hsucc
    have hbody := checkValidBody_mux_ok_parity ctx f st id srcs dests p0 p
      hsum hsub hsucc
    exact checkParity_ok_balanced ctx.C (toInt64 ctx.tx.serializedSize) p
      st.gas hbody a amt hm hne
  · intro ctx f st id srcs dests p0 p hc hsum hsub hsg hex
    have hpar2 := checkParity_unbalanced ctx.C
      (toInt64 ctx.tx.serializedSize) p st.gas hsg hex
    rcases hpar : checkParity ctx.C (toInt64 ctx.tx.serializedSize)
      st.gas p with ⟨g1, r1⟩
    rw [hpar] at hpar2
    simp at hpar2
    subst hpar2
    rw [checkValid_miss_unfold ctx (f + 1) st id _ hc]
    simp only
    rw [checkValidBody_mux_parity ctx f st id srcs dests p0 p g1
      .unbalanced hsum hsub hpar]
  · intro tx s r wd rest p href hlook
    simp [muxSumSources, href, hlook]

/-- C2: on a valid edge, checkValidSrc and checkValidDest agree: the
destination reached from a value source must reference back the current
entry (else MismatchedReference), record the current slot (else
MismatchedPosition) and carry an identical value (else MismatchedValue);
the mirror holds for the source reached from a value destination, so
mutating any of the three fields on either side is rejected. -/
theorem c2_bidirectional_integrity :
    (∀ (ctx : Ctx) (f : Nat) (st st1 : VSt) (entryID : Hash)
        (sourcePos : Nat) (s : ValueSource) (r : Hash) (e1 : Entry)
        (v : AssetAmount) (d : ValueDestination),
      s.ref = some r → s.value = some v → v.assetId ≠ none →
      lookupEntry ctx.tx r = some e1 →
      checkValid ctx f st r e1 = (st1, none) →
      srcRefDest e1 s.position = .ok (some d) →
      ((d.ref = some entryID → d.position = sourcePos →
          assetAmountEqual d.value (some v) = .ok true →
          checkValidSrc ctx (f + 1) st entryID sourcePos (some s) =
            (st1, none)) ∧
        (d.ref ≠ some entryID →
          checkValidSrc ctx (f + 1) st entryID sourcePos (some s) =
            (st1, some .mismatchedReference)) ∧
        (d.ref = some entryID → d.position ≠ sourcePos →
          checkValidSrc ctx (f + 1) st entryID sourcePos (some s) =
            (st1, some .mismatchedPosition)) ∧
        (d.ref = some entryID → d.position = sourcePos →
          assetAmountEqual d.value (some v) = .ok false →
          checkValidSrc ctx (f + 1) st entryID sourcePos (some s) =
            (st1, some .mismatchedValue)))) ∧
    (∀ (ctx : Ctx) (entryID : Hash) (destPos : Nat)
        (dd : ValueDestination) (rr : Hash) (e1 : Entry)
        (vv : AssetAmount) (ss : ValueSource),
      dd.ref = some rr → dd.value = some vv → vv.assetId ≠ none →
      lookupEntry ctx.tx rr = some e1 →
      destRefSrc e1 dd.position = .ok (some ss) →
      ((ss.ref = some entryID → ss.position = destPos →
          assetAmountEqual ss.value (some vv) = .ok true →
          checkValidDest ctx entryID destPos (some dd) = none) ∧
        (ss.ref ≠ some entryID →
          checkValidDest ctx entryID destPos (some dd) =
            some .mismatchedReference) ∧
        (ss.ref = some entryID → ss.position ≠ destPos →
          checkValidDest ctx entryID destPos (some dd) =
            some .mismatchedPosition) ∧
        (ss.ref = some entryID → ss.position = destPos →
          assetAmountEqual ss.value (some vv) = .ok false →
          checkValidDest ctx entryID destPos (some dd) =
            some .mismatchedValue))) := by
  constructor
  · intro ctx f st st1 entryID sourcePos s r e1 v d href hval hA hlook
      hcv hsrd
    refine ⟨?_, ?_, ?_, ?_⟩
    · intro h1 h2 h3
      simp [checkValidSrc, href, hval, hA, hlook, hcv, hsrd, h1, h2, h3]
    · intro h1
      simp [checkValidSrc, href, hval, hA, hlook, hcv, hsrd, h1]
    · intro h1 h2
      simp [checkValidSrc, href, hval, hA, hlook, hcv, hsrd, h1, h2]
    · intro h1 h2 h3
      simp [checkValidSrc, href, hval, hA, hlook, hcv, hsrd, h1, h2, h3]
  · intro ctx entryID destPos dd rr e1 vv ss href hval hA hlook hdrs
    refine ⟨?_, ?_, ?_, ?_⟩
    · intro h1 h2 h3
      simp [checkValidDest, href, hval, hA, hlook, hdrs, h1, h2, h3]
    · intro h1
      simp [checkValidDest, href, hval, hA, hlook, hdrs, h1]
    · intro h1 h2
      simp [checkValidDest, href, hval, hA, hlook, hdrs, h1, h2]
    · intro h1 h2 h3
      simp [checkValidDest, href, hval, hA, hlook, hdrs, h1, h2, h3]

/-- C3: in Mux validation, a source or destination amount of 2^63 or
more is rejected with Overflow, while amounts up to 2^63 - 1 pass the
per-amount bound check and proceed to the checked addition or
subtraction (which can itself still overflow); the source-side bound
violation propagates through checkValid. -/
theorem c3_overflow_boundary :
    (∀ (tx : Tx) (s : ValueSource) rest (p : PMap) (r : Hash)
        (e1 : Entry) (v : AssetAmount),
      s.ref = some r → lookupEntry tx r = some e1 →
      (∀ wd, e1 ≠ .dpos wd) → s.value = some v →
      v.amount ≥ 2 ^ 63 →
      muxSumSources tx (some s :: rest) p = .error .overflow) ∧
    (∀ (tx : Tx) (s : ValueSource) rest (p : PMap) (r : Hash)
        (e1 : Entry) (v : AssetAmount) (a : AssetID),
      s.ref = some r → lookupEntry tx r = some e1 →
      (∀ wd, e1 ≠ .dpos wd) → s.value = some v → v.assetId = some a →
      v.amount ≤ 2 ^ 63 - 1 →
      muxSumSources tx (some s :: rest) p =
        (match addInt64 ((pLookup p a).getD 0) (v.amount : Int) with
         | none => .error .overflow
         | some sum => muxSumSources tx rest (pSet p a sum))) ∧
    (∀ (d : ValueDestination) rest (p : PMap) (v : AssetAmount)
        (a : AssetID) (sum : Int),
      d.value = some v → v.assetId = some a → pLookup p a = some sum →
      v.amount ≥ 2 ^ 63 →
      muxSubDests (some d :: rest) p = .error .overflow) ∧
    (∀ (d : ValueDestination) rest (p : PMap) (v : AssetAmount)
        (a : AssetID) (sum : Int),
      d.value = some v → v.assetId = some a → pLookup p a = some sum →
      v.amount ≤ 2 ^ 63 - 1 →
      muxSubDests (some d :: rest) p =
        (match subInt64 sum (v.amount : Int) with
         | none => .error .overflow
         | some diff => muxSubDests rest (pSet p a diff))) ∧
    (∀ (ctx : Ctx) (f : Nat) (st : VSt) (id : Hash) (s : ValueSource)
        srcs dests (r : Hash) (e1 : Entry) (v : AssetAmount),
      cacheLookup st.cache id = none →
      s.ref = some r → lookupEntry ctx.tx r = some e1 →
      (∀ wd, e1 ≠ .dpos wd) → s.value = some v →
      v.amount ≥ 2 ^ 63 →
      (checkValid ctx (f + 2) st id (.mux (some s :: srcs) dests)).2 =
        some .overflow) := by
  refine ⟨?_, ?_, ?_, ?_, ?_⟩
  · intro tx s rest p r e1 v href hlook hnd hval hamt
    exact muxSumSources_head_overflow tx s rest p r e1 v href hlook hnd
      hval hamt
  · intro tx s rest p r e1 v a href hlook hnd hval ha hamt
    exact muxSumSources_head_inrange tx s rest p r e1 v a href hlook hnd
      hval ha hamt
  · intro d rest p v a sum hval ha hp hamt
    exact muxSubDests_head_overflow d rest p v a sum hval ha hp hamt
  · intro d rest p v a sum hval ha hp hamt
    exact muxSubDests_head_inrange d rest p v a sum hval ha hp hamt
  · intro ctx f st id s srcs dests r e1 v hc href hlook hnd hval hamt
    rw [checkValid_miss_unfold ctx (f + 1) st id _ hc]
    simp only
    rw [checkValidBody_mux_sum_error ctx f st id _ dests .overflow
      (muxSumSources_head_overflow ctx.tx s srcs [] r e1 v href hlook hnd
        hval hamt)]

/-- C4: setGas rejects a negative btm amount with a gas-calculation
error; otherwise gas_left is the checked quotient btm amount over the
gas rate, clamped at the gas ceiling, and storage_gas is the checked
product of the transaction size and the storage gas rate, each overflow
failing with a gas-calculation error; with gas rate 100,
setGas 100000000 yields gas_left 1000000 when within the ceiling. -/
theorem c4_setGas_spec (C : Consts) (g : GasState) (btm sz : Int) :
    (btm < 0 → setGas C g btm sz = (g, some .gasCalculate)) ∧
    (0 ≤ btm → divInt64 btm C.vmGasRate = none →
      (setGas C g btm sz).2 = some .gasCalculate) ∧
    (∀ q, 0 ≤ btm → divInt64 btm C.vmGasRate = some q →
      mulInt64 sz C.storageGasRate = none →
      (setGas C g btm sz).2 = some .gasCalculate) ∧
    (∀ q m, 0 ≤ btm → divInt64 btm C.vmGasRate = some q →
      mulInt64 sz C.storageGasRate = some m →
      (setGas C g btm sz).2 = none ∧
      (setGas C g btm sz).1.gasLeft =
        (if q > C.maxGasAmount then C.maxGasAmount else q) ∧
      (setGas C g btm sz).1.storageGas = m ∧
      (setGas C g btm sz).1.btmValue = btm.toNat ∧
      (setGas C g btm sz).1.gasUsed = g.gasUsed ∧
      (setGas C g btm sz).1.gasValid = g.gasValid) ∧
    (∀ m, C.vmGasRate = 100 → (1000000 : Int) ≤ C.maxGasAmount →
      mulInt64 sz C.storageGasRate = some m →
      (setGas C g 100000000 sz).1.gasLeft = 1000000 ∧
      (setGas C g 100000000 sz).2 = none) := by
  refine ⟨?_, ?_, ?_, ?_, ?_⟩
  · intro h
    simp [setGas, h]
  · intro h hdiv
    simp [setGas, not_lt.mpr h, hdiv]
  · intro q h hdiv hmul
    simp [setGas, not_lt.mpr h, hdiv, hmul]
  · intro q m h hdiv hmul
    simp [setGas, not_lt.mpr h, hdiv, hmul]
    split <;> simp
  · intro m hrate hmax hmul
    have hdiv : divInt64 100000000 C.vmGasRate = some 1000000 := by
      rw [hrate]; decide
    have hnot : ¬((1000000 : Int) > C.maxGasAmount) := not_lt.mpr hmax
    simp [setGas, hdiv, hmul, hnot]

/-- C5: updateUsage rejects a negative new gas_left with a
gas-calculation error; otherwise it adds the checked difference old
gas_left minus new gas_left to gas_used, sets gas_left to the new
value, and returns the over-credit error exactly when gas_valid is
still false and either the updated gas_used exceeds the free credit or
storage_gas exceeds the updated gas_left. -/
theorem c5_updateUsage_spec (C : Consts) (g : GasState) (ng : Int) :
    (ng < 0 → updateUsage C g ng = (g, some .gasCalculate)) ∧
    (0 ≤ ng → subInt64 g.gasLeft ng = none →
      updateUsage C g ng = (g, some .gasCalculate)) ∧
    (∀ d, 0 ≤ ng → subInt64 g.gasLeft ng = some d →
      (updateUsage C g ng).1 =
        { g with gasUsed := wrapInt64 (g.gasUsed + d), gasLeft := ng } ∧
      ((updateUsage C g ng).2 = some .overGasCredit ↔
        (g.gasValid = false ∧
          (wrapInt64 (g.gasUsed + d) > C.defaultGasCredit ∨
            g.storageGas > ng))) ∧
      ((updateUsage C g ng).2 = none ∨
        (updateUsage C g ng).2 = some .overGasCredit)) := by
  refine ⟨?_, ?_, ?_⟩
  · intro h
    simp [updateUsage, h]
  · intro h hsub
    simp [updateUsage, not_lt.mpr h, hsub]
  · intro d h hsub
    simp [updateUsage, not_lt.mpr h, hsub]
    split
    · rename_i hc
      simp_all
    · rename_i hc
      simp_all

/-- C6 (amended): checkValid on a Coinbase entry requires its
transaction to be the FIRST transaction of a present, nonempty
enclosing block (WrongCoinbaseTransaction otherwise) - being sole is
not checked -, requires the destination asset to be the settlement
asset (WrongCoinbaseAsset), bounds the arbitrary payload
(CoinbaseArbitraryOversize), validates the destination edge, and then
forces gas validity true. -/
theorem c6_coinbase_placement :
    (∀ (ctx : Ctx) (f : Nat) (st : VSt) (id : Hash)
        (wd : Option ValueDestination) (arb : Option ByteStr),
      cacheLookup st.cache id = none →
      (ctx.block = none ∨ ∃ b, ctx.block = some b ∧
        b.transactions.head? ≠ some ctx.tx) →
      (checkValid ctx (f + 2) st id (.coinbase wd arb)).2 =
        some .wrongCoinbaseTx) ∧
    (∀ (ctx : Ctx) (f : Nat) (st : VSt) (id : Hash)
        (wdv : ValueDestination) (arb : Option ByteStr) (b : Block)
        (v : AssetAmount) (a : AssetID),
      cacheLookup st.cache id = none →
      ctx.block = some b → b.transactions.head? = some ctx.tx →
      wdv.value = some v → v.assetId = some a → a ≠ ctx.C.btmAssetID →
      (checkValid ctx (f + 2) st id (.coinbase (some wdv) arb)).2 =
        some .wrongCoinbaseAsset) ∧
    (∀ (ctx : Ctx) (f : Nat) (st : VSt) (id : Hash)
        (wdv : ValueDestination) (bytes : ByteStr) (b : Block)
        (v : AssetAmount) (a : AssetID),
      cacheLookup st.cache id = none →
      ctx.block = some b → b.transactions.head? = some ctx.tx →
      wdv.value = some v → v.assetId = some a → a = ctx.C.btmAssetID →
      bytes.length > ctx.C.coinbaseArbitrarySizeLimit →
      (checkValid ctx (f + 2) st id
          (.coinbase (some wdv) (some bytes))).2 =
        some .coinbaseArbitraryOversize) ∧
    (∀ (ctx : Ctx) (f : Nat) (st : VSt) (id : Hash)
        (wdv : ValueDestination) (arb : Option ByteStr) (b : Block)
        (v : AssetAmount) (a : AssetID),
      cacheLookup st.cache id = none →
      ctx.block = some b → b.transactions.head? = some ctx.tx →
      wdv.value = some v → v.assetId = some a → a = ctx.C.btmAssetID →
      (arb = none ∨ ∃ bytes, arb = some bytes ∧
        ¬bytes.length > ctx.C.coinbaseArbitrarySizeLimit) →
      ((∀ err, checkValidDest ctx id 0 (some wdv) = some err →
          (checkValid ctx (f + 2) st id (.coinbase (some wdv) arb)).2 =
            some err) ∧
        (checkValidDest ctx id 0 (some wdv) = none →
          ((checkValid ctx (f + 2) st id (.coinbase (some wdv) arb)).2 =
              none ∧
            (checkValid ctx (f + 2) st id
                (.coinbase (some wdv) arb)).1.gas.gasValid = true)))) := by
  refine ⟨?_, ?_, ?_, ?_⟩
  · intro ctx f st id wd arb hc hblk
    rw [checkValid_miss_unfold ctx (f + 1) st id _ hc]
    simp only
    rcases hblk with hnone | ⟨b, hsome, hne⟩
    · simp [checkValidBody, hnone]
    · simp [checkValidBody, hsome, hne]
  · intro ctx f st id wdv arb b v a hc hb hfirst hval ha hne
    rw [checkValid_miss_unfold ctx (f + 1) st id _ hc]
    simp only
    simp [checkValidBody, hb, hfirst, hval, ha, hne]
  · intro ctx f st id wdv bytes b v a hc hb hfirst hval ha heq hlen
    rw [checkValid_miss_unfold ctx (f + 1) st id _ hc]
    simp only
    simp [checkValidBody, hb, hfirst, hval, ha, heq, hlen]
  · intro ctx f st id wdv arb b v a hc hb hfirst hval ha heq harb
    constructor
    · intro err hdest
      rw [checkValid_miss_unfold ctx (f + 1) st id _ hc]
      simp only
      rcases harb with hnone | ⟨bytes, hsome, hlen⟩
      · simp [checkValidBody, hb, hfirst, hval, ha, heq, hnone, hdest]
      · simp [checkValidBody, hb, hfirst, hval, ha, heq, hsome, hlen,
          hdest]
    · intro hdest
      rw [checkValid_miss_unfold ctx (f + 1) st id _ hc]
      simp only
      rcases harb with hnone | ⟨bytes, hsome, hlen⟩
      · simp [checkValidBody, hb, hfirst, hval, ha, heq, hnone, hdest]
      · simp [checkValidBody, hb, hfirst, hval, ha, heq, hsome, hlen,
          hdest]

/-- C6 counterexample: in a block holding TWO transactions with the
coinbase transaction placed first (so not sole), checkValid accepts the
Coinbase entry, against the claim that the transaction must be the
sole, first transaction. -/
theorem c6_counterexample :
    ctx6.block = some block6 ∧ block6.transactions.length = 2 ∧
    block6.transactions.head? = some ctx6.tx ∧
    tx6b ≠ tx6 ∧
    (checkValid ctx6 4 st0 100 (.coinbase wd6 none)).2 = none ∧
    (checkValid ctx6 4 st0 100 (.coinbase wd6 none)).1.gas.gasValid =
      true :=
  ⟨rfl, rfl, rfl, by decide, by decide, by decide⟩

/-- C7: the peg-in verifier ignores the flag VALUES of the merkle
proof - the Go loop `for flag := range merkleBlock.Flags` iterates the
indices of the Flags slice - so two witness stacks identical except for
one byte of the serialized proof, parsed into proofs differing in a
flag value, always verify identically; concretely both stackA and its
one-byte corruption stackB are accepted, against the claim that any
single corrupted proof byte is rejected. -/
theorem c7_flags_ignored :
    (∀ (C : Consts) (env : Env) (e0 e1 e2 e3 s4a s4b : Option ByteStr)
        (prevout : BcOutput) (mb1 mb2 : MerkleBlock),
      env.unmarshalMerkleBlock (bytesOf s4a) = some mb1 →
      env.unmarshalMerkleBlock (bytesOf s4b) = some mb2 →
      mb1.blockHeader = mb2.blockHeader → mb1.txHashes = mb2.txHashes →
      mb1.matchedTxIDs = mb2.matchedTxIDs →
      mb1.flags.length = mb2.flags.length →
      IsValidPeginWitness C env [e0, e1, e2, e3, s4a] prevout =
        IsValidPeginWitness C env [e0, e1, e2, e3, s4b] prevout) ∧
    stackA.length = 5 ∧ stackB.length = 5 ∧
    stackA.take 4 = stackB.take 4 ∧
    stackA.getD 4 none = some [0] ∧ stackB.getD 4 none = some [1] ∧
    env0.unmarshalMerkleBlock [0] ≠ env0.unmarshalMerkleBlock [1] ∧
    (env0.unmarshalMerkleBlock [0]).map MerkleBlock.flags = some [0] ∧
    (env0.unmarshalMerkleBlock [1]).map MerkleBlock.flags = some [1] ∧
    IsValidPeginWitness C0 env0 stackA prevout7 = none ∧
    IsValidPeginWitness C0 env0 stackB prevout7 = none := by
  refine ⟨?_, rfl, rfl, rfl, rfl, rfl, by decide, rfl, rfl, by decide,
    by decide⟩
  intro C env e0 e1 e2 e3 s4a s4b prevout mb1 mb2 hm1 hm2 hbh htx hmat
    hflen
  obtain ⟨bh1, tl1, sl1, fl1, ml1⟩ := mb1
  obtain ⟨bh2, tl2, sl2, fl2, ml2⟩ := mb2
  simp only at hbh htx hmat hflen
  subst hbh htx hmat
  simp only [IsValidPeginWitness]
  rcases hps : prevout.source with _ | psrc
  · simp only [hps]
  rcases hpv : psrc.value with _ | pval
  · simp only [hps, hpv]
  rcases hpp : prevout.controlProgram with _ | pprog
  · simp only [hps, hpv, hpp]
  simp only [hps, hpv, hpp]
  simp [hm1, hm2, hflen]

/-- C8: IsValidPeginWitness rejects every witness stack whose length is
not exactly 5, for every collaborator environment (so before any
merkle-proof inspection); the Claim dispatcher reaches
IsValidPeginWitness only past its own guard of at least 5 elements with
element 1 and the prior output source present, failing with the
pegin-no-witness error otherwise; a 4-element stack is rejected. -/
theorem c8_pegin_stack_length :
    (∀ (C : Consts) (env : Env) (stack : List (Option ByteStr))
        (prevout : BcOutput) (psrc : ValueSource) (pval : AssetAmount)
        (pprog : Program),
      prevout.source = some psrc → psrc.value = some pval →
      prevout.controlProgram = some pprog →
      stack.length ≠ 5 →
      IsValidPeginWitness C env stack prevout =
        some .peginWitnessLenErr) ∧
    (∀ (ctx : Ctx) (f : Nat) (st : VSt) (id : Hash) (oid : Hash)
        (wd : Option ValueDestination) (stack : List (Option ByteStr))
        (out : BcOutput),
      cacheLookup st.cache id = none →
      txOutput ctx.tx oid = some out →
      (stack.length < 5 ∨ stack.getD 1 none = none ∨
        out.source = none) →
      (checkValid ctx (f + 2) st id (.claim (some oid) wd stack)).2 =
        some .peginNoWitness) ∧
    IsValidPeginWitness C0 env0 [some [55], some [0], some [9], some [0]]
      prevout7 = some .peginWitnessLenErr := by
  refine ⟨?_, ?_, by decide⟩
  · intro C env stack prevout psrc pval pprog hsrc hval hprog hlen
    simp [IsValidPeginWitness, hsrc, hval, hprog, hlen]
  · intro ctx f st id oid wd stack out hc hout hguard
    rw [checkValid_miss_unfold ctx (f + 1) st id _ hc]
    simp only
    simp only [List.getD_eq_getElem?_getD] at hguard
    simp [checkValidBody, hout, hguard]

/-- C9: checkValid memoizes per entry id: a cached id returns the
recorded outcome with the run state untouched at any fuel; a fresh id
runs the type switch body exactly once and records its outcome in the
cache; hence any later call on the same id returns the first outcome
and changes nothing. -/
theorem c9_memoization :
    (∀ (ctx : Ctx) (fuel : Nat) (st : VSt) (id : Hash) (e : Entry)
        (r : Option Verr),
      cacheLookup st.cache id = some r →
      checkValid ctx fuel st id e = (st, r)) ∧
    (∀ (ctx : Ctx) (f : Nat) (st : VSt) (id : Hash) (e : Entry),
      cacheLookup st.cache id = none →
      checkValid ctx (f + 1) st id e =
        ({ (checkValidBody ctx f st id e).1 with
            cache := cacheInsert (checkValidBody ctx f st id e).1.cache id
              (checkValidBody ctx f st id e).2 },
          (checkValidBody ctx f st id e).2)) ∧
    (∀ (ctx : Ctx) (f : Nat) (st st1 : VSt) (id : Hash) (e : Entry)
        (r1 : Option Verr),
      checkValid ctx (f + 1) st id e = (st1, r1) →
      cacheLookup st1.cache id = some r1) ∧
    (∀ (ctx : Ctx) (f f2 : Nat) (st st1 : VSt) (id : Hash) (e : Entry)
        (r1 : Option Verr),
      checkValid ctx (f + 1) st id e = (st1, r1) →
      checkValid ctx f2 st1 id e = (st1, r1)) := by
  have hrec : ∀ (ctx : Ctx) (f : Nat) (st st1 : VSt) (id : Hash)
      (e : Entry) (r1 : Option Verr),
      checkValid ctx (f + 1) st id e = (st1, r1) →
      cacheLookup st1.cache id = some r1 := by
    intro ctx f st st1 id e r1 hrun
    cases hc : cacheLookup st.cache id with
    | some r =>
      rw [checkValid_hit ctx (f + 1) st id e r hc] at hrun
      obtain ⟨h1, h2⟩ := Prod.mk.injEq .. ▸ hrun
      rw [← h1, ← h2]
      exact hc
    | none =>
      rw [checkValid_miss_unfold ctx f st id e hc] at hrun
      simp only at hrun
      obtain ⟨h1, h2⟩ := Prod.mk.injEq .. ▸ hrun
      rw [← h1, ← h2]
      simp [cacheLookup_cacheInsert]
  refine ⟨?_, ?_, hrec, ?_⟩
  · intro ctx fuel st id e r hc
    exact checkValid_hit ctx fuel st id e r hc
  · intro ctx f st id e hc
    exact checkValid_miss_unfold ctx f st id e hc
  · intro ctx f f2 st st1 id e r1 hrun
    exact checkValid_hit ctx f2 st1 id e r1 (hrec ctx f st st1 id e r1 hrun)

/-- C10: RawTxSigWitness.Sign never reports an error, keeps Keys and
Quorum unchanged, and - beyond padding Sigs with empty slots up to the
number of keys - modifies at most the one slot that is the first with
an empty signature and a key matching the signing key, storing the
signature there; when no slot qualifies the signatures are unchanged. -/
theorem c10_sign_frame (env : SignEnv) (sw : RawTxSigWitness)
    (tpl index xprv : Nat) :
    (RawTxSigWitness.sign env sw tpl index xprv).2 = none ∧
    (RawTxSigWitness.sign env sw tpl index xprv).1.keys = sw.keys ∧
    (RawTxSigWitness.sign env sw tpl index xprv).1.quorum = sw.quorum ∧
    ((∃ j, j < sw.keys.length ∧
        ((padSigs sw.keys sw.sigs).getD j []).length = 0 ∧
        (∃ k, sw.keys.get? j = some k ∧ k.xpub = env.xpubOf xprv) ∧
        (∀ m, m < j →
          ¬(((padSigs sw.keys sw.sigs).getD m []).length = 0 ∧
            ∃ k, sw.keys.get? m = some k ∧ k.xpub = env.xpubOf xprv)) ∧
        (RawTxSigWitness.sign env sw tpl index xprv).1.sigs =
          (padSigs sw.keys sw.sigs).set j
            (env.xprvSign xprv (env.tplHash tpl index))) ∨
      ((∀ m, m < sw.keys.length →
          ¬(((padSigs sw.keys sw.sigs).getD m []).length = 0 ∧
            ∃ k, sw.keys.get? m = some k ∧ k.xpub = env.xpubOf xprv)) ∧
        (RawTxSigWitness.sign env sw tpl index xprv).1.sigs =
          padSigs sw.keys sw.sigs)) := by
  refine ⟨rfl, rfl, rfl, ?_⟩
  have h := signLoop_spec (env.xpubOf xprv)
    (env.xprvSign xprv (env.tplHash tpl index)) sw.keys 0
    (padSigs sw.keys sw.sigs)
  rcases h with ⟨jr, hjr, hlen, hk, hmin, hres⟩ | ⟨hall, hres⟩
  · left
    refine ⟨jr, hjr, by simpa using hlen, hk, ?_, ?_⟩
    · intro m hm
      simpa using hmin m hm
    · show signLoop (env.xpubOf xprv)
        (env.xprvSign xprv (env.tplHash tpl index)) 0 sw.keys
        (padSigs sw.keys sw.sigs) = _
      simpa using hres
  · right
    refine ⟨?_, ?_⟩
    · intro m hm
      simpa using hall m hm
    · exact hres

/-! Witness theorems: the claim theorems applied at concrete inputs. -/

/-- C1 witness: the concrete unbalanced mux is rejected with Unbalanced
and the trivially balanced mux is accepted. -/
theorem c1_witness :
    (checkValid ctxM 2 st0 10 (.mux [some srcA] [])).2 =
      some .unbalanced ∧
    (checkValid ctxM 2 st0 11 (.mux [] [])).2 = none :=
  ⟨c1_mux_value_conservation.2.1 ctxM 0 st0 10 [some srcA] [] [(2, 5)]
      [(2, 5)] rfl rfl rfl
      (fun g2 v hv => by simp [ctxM, C0] at hv)
      ⟨2, 5, by simp, by decide, by decide⟩,
    by decide⟩

/-- C2 witness: the matching coinbase-to-output edge of the fixture
graph passes both directions of the reference-integrity check. -/
theorem c2_witness :
    checkValidSrc ctx6 5 st0 200 0
      (some ⟨some 100, some aa50, 0⟩) = (st1c, none) ∧
    checkValidDest ctx6 100 0 (some ⟨some 200, some aa50, 0⟩) = none :=
  ⟨((c2_bidirectional_integrity.1 ctx6 4 st0 st1c 200 0
      ⟨some 100, some aa50, 0⟩ 100 (.coinbase wd6 none) aa50
      ⟨some 200, some aa50, 0⟩ rfl rfl (by decide) rfl (by decide)
      rfl).1) rfl rfl rfl,
    ((c2_bidirectional_integrity.2 ctx6 100 0 ⟨some 200, some aa50, 0⟩
      200 (.output out6) aa50 ⟨some 100, some aa50, 0⟩ rfl rfl
      (by decide) rfl rfl).1) rfl rfl rfl⟩

/-- C3 witness: the mux whose source amount is 2^63 is rejected with
Overflow, while an amount of 2^63 - 1 passes the bound check into the
accumulator. -/
theorem c3_witness :
    (checkValid ctxB 2 st0 12 (.mux [some srcBig] [])).2 =
      some .overflow ∧
    muxSumSources ctxB.tx [some srcMax] [] = .ok [(2, 2 ^ 63 - 1)] :=
  ⟨c3_overflow_boundary.2.2.2.2 ctxB 0 st0 12 srcBig [] [] 20
      (.spend none none []) { assetId := some 2, amount := 2 ^ 63 } rfl
      rfl rfl (fun wd => by simp) rfl (by decide),
    rfl⟩

/-- C4 witness: a negative btm amount is rejected; btm amount 100000000
at gas rate 100 under a 5000000 ceiling gives gas_left 1000000. -/
theorem c4_witness :
    setGas C0 gas0 (-1) 10 = (gas0, some .gasCalculate) ∧
    (setGas { C0 with maxGasAmount := 5000000 } gas0 100000000
        10).1.gasLeft = 1000000 ∧
    (setGas { C0 with maxGasAmount := 5000000 } gas0 100000000 10).2 =
      none :=
  ⟨(c4_setGas_spec C0 gas0 (-1) 10).1 (by decide),
    ((c4_setGas_spec { C0 with maxGasAmount := 5000000 } gas0 100000000
      10).2.2.2.2 10 (by decide) (by decide) (by decide)).1,
    ((c4_setGas_spec { C0 with maxGasAmount := 5000000 } gas0 100000000
      10).2.2.2.2 10 (by decide) (by decide) (by decide)).2⟩

/-- C5 witness: a 60-unit consumption is booked into gas_used, a
negative new gas_left is rejected, and an uncovered storage gas trips
the over-credit error. -/
theorem c5_witness :
    updateUsage C0 { gas0 with gasLeft := 100 } 40 =
      ({ gas0 with gasLeft := 40, gasUsed := 60 }, none) ∧
    updateUsage C0 gas0 (-5) = (gas0, some .gasCalculate) ∧
    (updateUsage C0 { gas0 with gasLeft := 100, storageGas := 90 }
        40).2 = some .overGasCredit :=
  ⟨by decide, (c5_updateUsage_spec C0 gas0 (-5)).1 (by decide), by decide⟩

/-- C6 witness: the coinbase whose transaction is displaced from
position 0 of the block is rejected with WrongCoinbaseTransaction. -/
theorem c6_witness :
    (checkValid ctx6b 2 st0 100 (.coinbase wd6 none)).2 =
      some .wrongCoinbaseTx :=
  c6_coinbase_placement.1 ctx6b 0 st0 100 wd6 none rfl
    (Or.inr ⟨block6b, rfl, by decide⟩)

/-- C8 witness: a 6-element stack is likewise rejected before proof
inspection. -/
theorem c8_witness :
    IsValidPeginWitness C0 env0 (stackA ++ [some []]) prevout7 =
      some .peginWitnessLenErr :=
  c8_pegin_stack_length.1 C0 env0 (stackA ++ [some []]) prevout7
    ⟨some 0, some { assetId := some 1, amount := 7 }, 0⟩
    { assetId := some 1, amount := 7 } { vmVersion := 1, code := [] }
    rfl rfl rfl (by decide)

/-- C9 witness: with the coinbase outcome cached, a revisit returns it
unchanged, even with zero fuel; a second call after the first run is
the identity on the run state. -/
theorem c9_witness :
    checkValid ctx6 0 st1c 100 (.coinbase wd6 none) = (st1c, none) ∧
    checkValid ctx6 9 st1c 100 (.coinbase wd6 none) = (st1c, none) :=
  ⟨c9_memoization.1 ctx6 0 st1c 100 (.coinbase wd6 none) none rfl,
    c9_memoization.2.2.2 ctx6 3 9 st0 st1c 100 (.coinbase wd6 none)
      none (by decide)⟩

/-- C10 witness: signing the two-key fixture fills exactly the second
slot (first empty slot with the matching key) and reports no error. -/
theorem c10_witness :
    RawTxSigWitness.sign senv swW 0 0 7 =
      ({ swW with sigs := [[1], [2, 3]] }, none) ∧
    (RawTxSigWitness.sign senv swW 0 0 7).1.keys = swW.keys :=
  ⟨by decide, (c10_sign_frame senv swW 0 0 7).2.1⟩

end VaporVal
